import Mathlib

/-!
Shallow embedding of the snapshot archiver (`src/archiver.go`) of a
content-addressed deduplicating backup system, together with theorems that
settle the frozen claims about its specification.

Conventions of the embedding:
* Content ids and storage ids (`backend.ID`) are modelled as `Nat`.
* Go errors (`error`) are modelled as `Option String` (`none` = nil).
* Fallible functions return `Except String α`.
* External collaborators (the store backend, the chunker, `NodeFromFileInfo`,
  the recursive tree walkers) are passed in as explicit parameters, so a
  theorem about a function quantifies over every behaviour of its
  collaborators.
* The in-memory Blob Index (`Map`, whose code is not part of the sources
  given, only its call sites) is modelled from the spec, section 4.1.
-/

namespace ResticArchiver

/-- A blob record: { content-id, storage-id, size }, from the data model
(`Blob` in the source; the `type` tag plays no role in any claim and the
store type is threaded separately where it matters). -/
structure Blob where
  id : Nat
  storage : Nat
  size : Nat
deriving DecidableEq

/-- The part of `os.FileInfo` the archiver reads: mode bits, mtime, size. -/
structure FileInfo where
  mode : Nat
  modTime : Nat
  size : Nat
deriving DecidableEq

/-- A filesystem entry (`Node` in the source).  `content = none` models a nil
Go slice, `content = some []` an empty non-nil slice (the source
distinguishes them at `saveTree`'s empty-content check).  `errField` is the
serialized `Node.Error` string, `err` the transient `node.err`, `hasTree`
models `node.tree != nil`. -/
structure Node where
  name : String
  path : String
  type : String
  size : Nat
  modTime : Nat
  content : Option (List Nat)
  subtree : Option Nat
  errField : String
  err : Option String
  blobs : List Blob
  hasTree : Bool
deriving DecidableEq

/-- Go's `len(node.Content)`: a nil slice has length 0. -/
def contentLen (n : Node) : Nat := (n.content.getD []).length

/-- The Blob Index: modelled as an association list of blob records keyed by
content id (at most one record per id is ever retained, per spec 4.1). -/
abbrev Map := List Blob

/-- Modelled from the spec (4.1), code of `Map` not in src: `FindID` returns
the record stored for a content id, or not-found. -/
def mapFindID (m : Map) (id : Nat) : Option Blob :=
  m.find? (fun b => b.id == id)

/-- Modelled from the spec (4.1), code of `Map` not in src: `Insert` stores
the blob if no record exists for its content id and returns it; otherwise it
returns the existing (canonical) record unchanged. -/
def mapInsert (m : Map) (b : Blob) : Map × Blob :=
  match mapFindID m b.id with
  | some e => (m, e)
  | none => (m ++ [b], b)

/-- Modelled from the spec (4.1), code of `Map` not in src: `DeleteID`
removes the record for a content id. -/
def mapDeleteID (m : Map) (id : Nat) : Map :=
  m.filter (fun b => b.id ≠ id)

/-- Modelled from the spec (4.1), code of `Map` not in src: `Merge` inserts
all of the other index's records following the `Insert` rule. -/
def mapMerge (m other : Map) : Map :=
  other.foldl (fun acc b => (mapInsert acc b).1) m

/-- Modelled from the spec (4.1/4.10), code of `Map` not in src: `Prune`
keeps exactly the records whose content id is in the keep-set. -/
def mapPrune (m : Map) (keep : List Nat) : Map :=
  m.filter (fun b => keep.contains b.id)

/-- Modelled from the spec (4.1), code of `Map` not in src: `IDs`. -/
def mapIDs (m : Map) : List Nat := m.map (fun b => b.id)

/-! ### Archiver.Save (src/archiver.go lines 139-173) -/

/-- The environment of one `Archiver.Save` call: the outcome of
`arch.m.FindID(id)`, the blob and error returned by `arch.s.SaveFrom`, the
canonical record `arch.m.Insert` would return for a given blob, and the
error returned by `arch.s.Remove`. -/
structure SaveEnv where
  findResult : Option Blob
  saveFromBlob : Blob
  saveFromErr : Option String
  insertF : Blob → Blob
  removeErr : Option String

/-- Observable effects of one `Archiver.Save` call: whether the reader was
handed to the store (`SaveFrom` streams it), which blob was inserted into
the Blob Index, and which storage object `Remove` was called on. -/
structure SaveTrace where
  readerUsed : Bool
  uploaded : Bool
  inserted : Option Blob
  removeCalled : Option Nat
deriving DecidableEq

/-- `Archiver.Save`: dedup check via `FindID`; on miss upload via
`SaveFrom` (its error value is assigned but never tested by the source),
insert into the Blob Index, and if the canonical record's storage id
differs from the uploaded one, remove the uploaded object; return the
canonical record. -/
def saveRun (env : SaveEnv) : Except String Blob × SaveTrace :=
  match env.findResult with
  | some blob => (Except.ok blob, ⟨false, false, none, none⟩)
  | none =>
      let blob := env.saveFromBlob
      let smapblob := env.insertF blob
      if blob.storage ≠ smapblob.storage then
        match env.removeErr with
        | some e => (Except.error e, ⟨true, true, some blob, some blob.storage⟩)
        | none => (Except.ok smapblob, ⟨true, true, some blob, some blob.storage⟩)
      else
        (Except.ok smapblob, ⟨true, true, some blob, none⟩)

/-! ### ArchivePipe.compare (src/archiver.go lines 607-686) -/

/-- What one iteration of the compare loop does once both a pending old job
and a pending new job are held. -/
inductive CompareAction where
  | emitBoth
  | emitNewOnly
  | dropOld
deriving DecidableEq

/-- A path as Go compares it in the compare stage: a byte sequence, ordered
byte-wise lexicographically (Go string `<`). -/
abbrev PathBytes := List Nat

/-- One step of `ArchivePipe.compare` (the body of the loop after both jobs
are loaded), parametric in the path-to-directory function (`filepath.Dir`).
`file1` is the pending old job's path, `file2` the pending new job's path.
`emitBoth` = send joined job, advance both; `emitNewOnly` = send the new job
alone, advance new; `dropOld` = advance old without emitting. -/
def compareStep (dirF : PathBytes → PathBytes) (file1 file2 : PathBytes) :
    CompareAction :=
  if file1 = file2 then
    CompareAction.emitBoth
  else if dirF file1 < dirF file2 then
    CompareAction.emitNewOnly
  else if dirF file1 = dirF file2 ∧ file1 < file2 then
    CompareAction.dropOld
  else
    CompareAction.dropOld

/-- The same step as the specification words it (claim C2): new-only is
emitted when dir(new.path) < dir(old.path).  Written from the spec's words
for refutation against `compareStep`, which is written from the source. -/
def compareStepClaim (dirF : PathBytes → PathBytes) (file1 file2 : PathBytes) :
    CompareAction :=
  if file1 = file2 then
    CompareAction.emitBoth
  else if dirF file2 < dirF file1 then
    CompareAction.emitNewOnly
  else if dirF file1 = dirF file2 ∧ file1 < file2 then
    CompareAction.dropOld
  else
    CompareAction.dropOld

/-- Model of Go's `filepath.Dir` on clean relative paths: everything before
the last separator (byte 47, "/"), or "." (byte 46) when there is none.
Used only to instantiate theorems at concrete paths such as "a/x"
([97, 47, 120]), where it agrees with Go. -/
def goDir (s : PathBytes) : PathBytes :=
  if s.contains 47 then
    ((s.reverse.dropWhile (fun c => c ≠ 47)).drop 1).reverse
  else [46]

/-! ### archiveJob.Copy (src/archiver.go lines 688-717) and isFile -/

/-- A job flowing in the pipeline: a `pipe.Entry` (file or other leaf, with
an optional old-Node field used for content reuse) or a `pipe.Dir`. -/
inductive PipeJob where
  | entry (path : String) (fullpath : String) (info : Option FileInfo)
      (node : Option Node)
  | dir (path : String) (info : Option FileInfo)
deriving DecidableEq

/-- `Path()` of a pipe job. -/
def PipeJob.path : PipeJob → String
  | PipeJob.entry p _ _ _ => p
  | PipeJob.dir p _ => p

/-- `Fullpath()` of a pipe job (`pipe.Dir` has one too; unused here). -/
def PipeJob.fullpath : PipeJob → String
  | PipeJob.entry _ fp _ _ => fp
  | PipeJob.dir p _ => p

/-- `Info()` of a pipe job. -/
def PipeJob.info : PipeJob → Option FileInfo
  | PipeJob.entry _ _ i _ => i
  | PipeJob.dir _ i => i

/-- Value of `os.ModeType | os.ModeCharDevice`: ModeDir, ModeSymlink,
ModeDevice, ModeNamedPipe, ModeSocket, ModeCharDevice. -/
def modeTypeMask : Nat := 2 ^ 31 + 2 ^ 27 + 2 ^ 26 + 2 ^ 25 + 2 ^ 24 + 2 ^ 21

/-- `isFile` (src/archiver.go lines 836-842): nil info is not a file; else
the mode bits must contain no type bit. -/
def isFile : Option FileInfo → Bool
  | none => false
  | some fi => fi.mode &&& modeTypeMask == 0

/-- An `archiveJob` from the compare stage: an optional old walk result
(path plus optional Node) joined with the new pipe job. -/
structure ArchiveJob where
  hasOld : Bool
  oldPath : String
  oldNode : Option Node
  newJob : PipeJob

/-- `archiveJob.Copy`, parametric in `Node.isNewer` (whose code is not in
src).  Returns `none` exactly where the Go type assertion
`j.new.(pipe.Entry)` would panic (a dir job whose info passes `isFile`). -/
def archiveJobCopy (isNewer : Node → String → Option FileInfo → Bool)
    (j : ArchiveJob) : Option PipeJob :=
  if j.hasOld = false then
    some j.newJob
  else if isFile j.newJob.info then
    match j.oldNode with
    | none => some j.newJob
    | some old =>
      if isNewer old j.newJob.fullpath j.newJob.info then
        some j.newJob
      else
        match j.newJob with
        | PipeJob.entry p fp i _ => some (PipeJob.entry p fp i (some old))
        | PipeJob.dir _ _ => none
  else
    some j.newJob

/-! ### fileWorker (src/archiver.go lines 419-483) -/

/-- Outcome of processing one entry job in `fileWorker`: either the worker
panics (aborting the process) or it deposits a completed Node into the
job's result channel. -/
inductive WorkerOutcome where
  | panicked (msg : String)
  | produced (n : Node)
deriving DecidableEq

/-- Whether a worker outcome deposits a node. -/
def WorkerOutcome.producesNode : WorkerOutcome → Bool
  | WorkerOutcome.panicked _ => false
  | WorkerOutcome.produced _ => true

/-- The old-node reuse step of `fileWorker` (lines 440-461): when the job
carries an old Node and every old chunk blob passes the store presence
test, copy the old content and blobs onto the fresh node. -/
def applyOldNode (test : Nat → Bool) (oldNode : Option Node) (node : Node) : Node :=
  match oldNode with
  | none => node
  | some old =>
    if old.blobs.all (fun b => test b.storage) then
      { node with content := old.content, blobs := old.blobs }
    else
      node

/-- One `fileWorker` job (lines 432-477): build a Node from the file info
(panicking if that fails), try to reuse old content, and if the node is a
file with no content call `SaveFile`, panicking on its error; otherwise
deposit the node. `nffi` is the result of `NodeFromFileInfo`, `saveFileF`
the behaviour of `Archiver.SaveFile` (returning the mutated node, the blobs
and the error). -/
def fileWorkerStep (nffi : Except String Node) (oldNode : Option Node)
    (test : Nat → Bool)
    (saveFileF : Node → Except String (Node × List Blob)) : WorkerOutcome :=
  match nffi with
  | Except.error e => WorkerOutcome.panicked e
  | Except.ok node0 =>
    let node1 := applyOldNode test oldNode node0
    if node1.type = "file" ∧ contentLen node1 = 0 then
      match saveFileF node1 with
      | Except.error e => WorkerOutcome.panicked e
      | Except.ok (n2, bs) => WorkerOutcome.produced { n2 with blobs := bs }
    else
      WorkerOutcome.produced node1

/-! ### Archiver.SaveFile (src/archiver.go lines 205-303) -/

/-- The re-stat check of `SaveFile` (lines 214-233): when the fresh stat's
mtime differs from the node's recorded mtime, consult `arch.Error`; if it
returns nil, rebuild the node from the fresh file info (propagating only a
`NodeFromFileInfo` failure); if it returns non-nil, keep the old node and
continue.  `archError` is the `arch.Error` callback restricted to the
arguments used here, `nffi` the result of `NodeFromFileInfo`. -/
def saveFileStatCheck (archError : String → Option FileInfo → String → Option String)
    (nffi : Except String Node) (fi : FileInfo) (node : Node) : Except String Node :=
  if fi.modTime ≠ node.modTime then
    match archError node.path (some fi) "file was updated, using new version" with
    | none =>
      match nffi with
      | Except.error e => Except.error e
      | Except.ok n => Except.ok n
    | some _ => Except.ok node
  else
    Except.ok node

/-- One chunk produced by the chunker: content digest and length. -/
structure Chunk where
  digest : Nat
  length : Nat
deriving DecidableEq

/-- The tail of `SaveFile` (lines 276-302), after the per-chunk saves have
been collected in chunker order into `blobs`: fail when the number of blobs
differs from the number of chunks; populate `node.Content` with the blobs'
content ids in order; fail when the blob sizes do not sum to `node.Size`;
otherwise return the updated node and the blobs. -/
def saveFileFinish (node : Node) (chunks : Nat) (blobs : List Blob) :
    Except String (Node × List Blob) :=
  if blobs.length ≠ chunks then
    Except.error "chunker returned more chunks than blobs saved"
  else
    let node2 := { node with content := some (blobs.map (fun b => b.id)) }
    let bytes := (blobs.map (fun b => b.size)).sum
    if bytes ≠ node.size then
      Except.error "errors saving node: saved wrong number of bytes"
    else
      Except.ok (node2, blobs)

/-! ### saveTree (src/archiver.go lines 305-417) -/

/-- Whether a content id fails the validation of `saveTree` against the
tree's local index `tm`: absent from the index, or its blob's storage
object fails the store presence test. -/
def badIDb (test : Nat → Bool) (tm : Map) (id : Nat) : Bool :=
  match mapFindID tm id with
  | none => true
  | some b => !(test b.storage)

/-- The content-validation loop of `saveTree` (lines 327-345): for each
content id in order, look it up in the tree's local index; when it is
absent or its blob fails the presence test, mark the content for removal
and delete the id from both the local and the global index. -/
def checkContentIds (test : Nat → Bool) : List Nat → Map → Map → Bool → Map × Map × Bool
  | [], tm, gm, rm => (tm, gm, rm)
  | id :: rest, tm, gm, rm =>
    match mapFindID tm id with
    | none => checkContentIds test rest (mapDeleteID tm id) (mapDeleteID gm id) true
    | some blob =>
      if test blob.storage then
        checkContentIds test rest tm gm rm
      else
        checkContentIds test rest (mapDeleteID tm id) (mapDeleteID gm id) true

/-- The per-file content check of `saveTree` (lines 322-351): for a file
node with non-empty content run the validation loop and, when anything was
removed, clear the node's content to an empty (non-nil) list. -/
def checkFileContent (test : Nat → Bool) (tm gm : Map) (node : Node) :
    Map × Map × Node :=
  if node.type = "file" ∧ contentLen node > 0 then
    let r := checkContentIds test (node.content.getD []) tm gm false
    (r.1, r.2.1, if r.2.2 then { node with content := some [] } else node)
  else
    (tm, gm, node)

/-- The ids a node contributes to `usedIDs` in `saveTree` (lines 382-390):
a file node with non-nil content contributes its content ids, a dir node
with a subtree contributes the subtree id. -/
def nodeUsedIDs (n : Node) : List Nat :=
  (if n.type = "file" ∧ n.content ≠ none then n.content.getD [] else [])
    ++ (if n.type = "dir" ∧ n.subtree ≠ none then [n.subtree.getD 0] else [])

/-- `usedIDs` over a node list, in order. -/
def usedIDsOf (nodes : List Node) : List Nat :=
  nodes.foldr (fun n acc => nodeUsedIDs n ++ acc) []

/-- The expected repair of one node by the error-recording loop: a node
with a pending `err` gets it copied into its serialized `Error` field. -/
def recordNodeError (n : Node) : Node :=
  match n.err with
  | some e => { n with errField := e }
  | none => n

/-- The check loop of `saveTree` (lines 376-401): abort on a file node with
nil content and no pending error; collect used ids; for a node with a
pending error consult `arch.Error` (here restricted to path and message),
abort when it returns non-nil, else record the message on the node. -/
def finishNodes (archError : String → String → Option String) :
    List Node → Except String (List Node × List Nat)
  | [] => Except.ok ([], [])
  | node :: rest =>
    if node.type = "file" ∧ node.content = none ∧ node.err = none then
      Except.error ("node " ++ node.name ++ " has empty content")
    else
      match node.err with
      | some e =>
        match archError node.path e with
        | some e2 => Except.error e2
        | none =>
          match finishNodes archError rest with
          | Except.error e3 => Except.error e3
          | Except.ok (ns, used) =>
            Except.ok ({ node with errField := e } :: ns, nodeUsedIDs node ++ used)
      | none =>
        match finishNodes archError rest with
        | Except.error e3 => Except.error e3
        | Except.ok (ns, used) =>
          Except.ok (node :: ns, nodeUsedIDs node ++ used)

/-- The tail of `saveTree` (lines 371-416): run the check loop, prune the
tree's local index to the used ids, then serialize and save the tree
(`SaveTreeJSON`, whose outcome is the parameter `saveJSON`). -/
def saveTreeFinish (archError : String → String → Option String)
    (saveJSON : Except String Blob) (nodes : List Node) (tm : Map) :
    Except String (Blob × List Node × Map) :=
  match finishNodes archError nodes with
  | Except.error e => Except.error e
  | Except.ok (ns, used) =>
    match saveJSON with
    | Except.error e => Except.error e
    | Except.ok b => Except.ok (b, ns, mapPrune tm used)

/-! ### Preload (src/archiver.go lines 62-137) -/

/-- `Archiver.Preload`, sequentialized: abort when the cache cannot be
created; otherwise, for each tree id listed by `EachID`, either skip it
(when loading or decoding that tree failed, `loadTree id = none`) or merge
its embedded index into the global index; finally return the error of
`EachID` itself together with the (already mutated) global index.
`loadTree` covers both the cache path and the `LoadTree` path of the
source, whose failures are both skipped by `continue`. -/
def preloadRun (cacheErr : Option String) (ids : List Nat)
    (eachIDErr : Option String) (loadTree : Nat → Option Map) (m : Map) :
    Option String × Map :=
  match cacheErr with
  | some e => (some e, m)
  | none =>
    let m1 := ids.foldl (fun acc i =>
      match loadTree i with
      | none => acc
      | some tmap => mapMerge acc tmap) m
    (eachIDErr, m1)

/-! ### NewArchiver (src/archiver.go lines 39-60) -/

/-- The local variable `var err error` of `NewArchiver`: declared and never
assigned, so it stays nil. -/
def newArchiverErrVar : Option String := none

/-- The default `arch.Error` callback installed by `NewArchiver`
(line 55): a closure over `newArchiverErrVar`. -/
def newArchiverDefaultError : String → Option FileInfo → String → Option String :=
  fun _ _ _ => newArchiverErrVar

/-- Whether an `Except` result is an error. -/
def isError {α : Type} : Except String α → Bool
  | Except.error _ => true
  | Except.ok _ => false

/-! ## Theorems -/

/-- C1: `Save(type, content-id, length, reader)`: when `FindID` hits, Save
returns that existing blob and never touches the reader; otherwise it
uploads via the store, inserts the uploaded blob into the Blob Index, and —
when the canonical record returned by Insert carries a different storage id
and the removal of the redundant object succeeds — removes the just
uploaded storage object and returns the canonical record (it also returns
the canonical record when the storage ids agree). -/
theorem c1_save_dedup_and_race (env : SaveEnv) :
    (∀ b, env.findResult = some b →
      saveRun env = (Except.ok b, ⟨false, false, none, none⟩))
    ∧ (env.findResult = none →
      (saveRun env).2.readerUsed = true
      ∧ (saveRun env).2.uploaded = true
      ∧ (saveRun env).2.inserted = some env.saveFromBlob
      ∧ ((env.insertF env.saveFromBlob).storage ≠ env.saveFromBlob.storage →
          env.removeErr = none →
          (saveRun env).1 = Except.ok (env.insertF env.saveFromBlob)
          ∧ (saveRun env).2.removeCalled = some env.saveFromBlob.storage)
      ∧ ((env.insertF env.saveFromBlob).storage = env.saveFromBlob.storage →
          (saveRun env).1 = Except.ok (env.insertF env.saveFromBlob)
          ∧ (saveRun env).2.removeCalled = none)) := by
  constructor
  · intro b hb
    simp [saveRun, hb]
  · intro hn
    by_cases hst : env.saveFromBlob.storage = (env.insertF env.saveFromBlob).storage
    · have hrun : saveRun env
          = (Except.ok (env.insertF env.saveFromBlob),
              ⟨true, true, some env.saveFromBlob, none⟩) := by
        simp [saveRun, hn, hst]
      rw [hrun]
      refine ⟨rfl, rfl, rfl, ?_, ?_⟩
      · intro hne _
        exact absurd hst.symm hne
      · intro _
        exact ⟨rfl, rfl⟩
    · cases hrm : env.removeErr with
      | some e =>
        have hrun : saveRun env
            = (Except.error e,
                ⟨true, true, some env.saveFromBlob, some env.saveFromBlob.storage⟩) := by
          simp [saveRun, hn, hst, hrm]
        rw [hrun]
        refine ⟨rfl, rfl, rfl, ?_, ?_⟩
        · intro _ hno
          cases hno
        · intro heq
          exact absurd heq.symm hst
      | none =>
        have hrun : saveRun env
            = (Except.ok (env.insertF env.saveFromBlob),
                ⟨true, true, some env.saveFromBlob, some env.saveFromBlob.storage⟩) := by
          simp [saveRun, hn, hst, hrm]
        rw [hrun]
        refine ⟨rfl, rfl, rfl, ?_, ?_⟩
        · intro _ _
          exact ⟨rfl, rfl⟩
        · intro heq
          exact absurd heq.symm hst

/-- Concrete run of `c1_save_dedup_and_race`: a Save that loses the race
(canonical storage id 9 differs from uploaded storage id 2). -/
def envC1 : SaveEnv := ⟨none, ⟨5, 2, 7⟩, none, fun _ => ⟨5, 9, 7⟩, none⟩

/-- Witness for C1: on `envC1`, Save returns the canonical record and calls
Remove on the just-uploaded storage object. -/
theorem c1_save_dedup_and_race_witness :
    (saveRun envC1).1 = Except.ok ⟨5, 9, 7⟩
    ∧ (saveRun envC1).2.removeCalled = some 2
    ∧ (saveRun envC1).2.readerUsed = true := by
  have h := (c1_save_dedup_and_race envC1).2 rfl
  have h4 := h.2.2.2.1 (by decide) rfl
  exact ⟨h4.1, h4.2, h.1⟩

/-- C9: when the upload inside Save fails but the record inserted into the
Blob Index has the same storage id as the blob value returned by the failed
upload, Save returns that record with a nil error: the `SaveFrom` error is
never consulted. -/
theorem c9_upload_error_discarded (env : SaveEnv) (e : String)
    (h1 : env.findResult = none) (_h2 : env.saveFromErr = some e)
    (h3 : (env.insertF env.saveFromBlob).storage = env.saveFromBlob.storage) :
    saveRun env
      = (Except.ok (env.insertF env.saveFromBlob),
          ⟨true, true, some env.saveFromBlob, none⟩) := by
  simp [saveRun, h1, h3]

/-- Concrete run for C9: `SaveFrom` reports an error, yet Insert returns a
record with the uploaded blob's own storage id. -/
def envC9 : SaveEnv := ⟨none, ⟨5, 2, 7⟩, some "upload failed", fun b => b, none⟩

/-- Witness for C9: on `envC9` Save succeeds, discarding the upload error. -/
theorem c9_upload_error_discarded_witness :
    saveRun envC9 = (Except.ok ⟨5, 2, 7⟩, ⟨true, true, some ⟨5, 2, 7⟩, none⟩) := by
  exact c9_upload_error_discarded envC9 "upload failed" rfl rfl rfl

/-- C10: the default error callback installed by `NewArchiver` closes over
the never-assigned `var err error` and therefore returns nil on every
input, so no recoverable per-entry failure aborts a snapshot unless the
caller replaces the callback. -/
theorem c10_default_error_always_nil :
    ∀ (d : String) (fi : Option FileInfo) (e : String),
      newArchiverDefaultError d fi e = none :=
  fun _ _ _ => rfl

/-- C2, counterexample: at old path "a/x" ([97, 47, 120]) and new path
"b/y" ([98, 47, 121]) — unequal paths with dir(old) = "a" < "b" = dir(new)
— the source emits the new job alone and advances the new side, while the
claim (which emits new-only exactly when dir(new) < dir(old)) prescribes
dropping the old job and advancing the old side. -/
theorem c2_compare_counterexample :
    compareStep goDir [97, 47, 120] [98, 47, 121] = CompareAction.emitNewOnly
    ∧ compareStepClaim goDir [97, 47, 120] [98, 47, 121] = CompareAction.dropOld := by
  constructor <;> decide

/-- C2, amended: with unequal pending paths the compare stage emits the new
job alone and advances only the new side exactly when
dir(old.path) < dir(new.path) (not dir(new.path) < dir(old.path) as the
claim says); when dir(old.path) = dir(new.path) and old.path < new.path it
advances the old side without emitting; and in every remaining unequal case
it likewise drops the old job and advances the old side. -/
theorem c2_compare_amended (dirF : PathBytes → PathBytes)
    (file1 file2 : PathBytes) (h : file1 ≠ file2) :
    (compareStep dirF file1 file2 = CompareAction.emitNewOnly
      ↔ dirF file1 < dirF file2)
    ∧ (dirF file1 = dirF file2 → file1 < file2 →
        compareStep dirF file1 file2 = CompareAction.dropOld)
    ∧ (¬ dirF file1 < dirF file2 →
        compareStep dirF file1 file2 = CompareAction.dropOld) := by
  unfold compareStep
  rw [if_neg h]
  by_cases hd : dirF file1 < dirF file2
  · rw [if_pos hd]
    refine ⟨⟨fun _ => hd, fun _ => rfl⟩, ?_, ?_⟩
    · intro heq _
      rw [heq] at hd
      exact absurd hd (lt_irrefl _)
    · intro hnd
      exact absurd hd hnd
  · rw [if_neg hd]
    constructor
    · constructor
      · intro hcontra
        by_cases hc : dirF file1 = dirF file2 ∧ file1 < file2
        · rw [if_pos hc] at hcontra
          cases hcontra
        · rw [if_neg hc] at hcontra
          cases hcontra
      · intro hlt
        exact absurd hlt hd
    · constructor
      · intro heq hlt
        rw [if_pos ⟨heq, hlt⟩]
      · intro _
        by_cases hc : dirF file1 = dirF file2 ∧ file1 < file2
        · rw [if_pos hc]
        · rw [if_neg hc]

/-- Witness for the amended C2: old path "a/b", new path "a/c" in the same
directory, old < new: the old side is advanced without emitting. -/
theorem c2_compare_amended_witness :
    compareStep goDir [97, 47, 98] [97, 47, 99] = CompareAction.dropOld := by
  have h := c2_compare_amended goDir [97, 47, 98] [97, 47, 99] (by decide)
  exact h.2.1 (by decide) (by decide)

/-- Concrete entry job node for the C3 theorems: a plain file with no
content yet. -/
def nodeC3 : Node := ⟨"x", "/a/x", "file", 5, 0, none, none, "", none, [], false⟩

/-- C3, counterexample: when `SaveFile` fails with an I/O error, the file
worker panics (aborting the process); it does not record the error on a
Node nor deposit any Node into the result channel. -/
theorem c3_fileworker_counterexample :
    fileWorkerStep (Except.ok nodeC3) none (fun _ => true)
        (fun _ => Except.error "boom")
      = WorkerOutcome.panicked "boom"
    ∧ WorkerOutcome.producesNode
        (fileWorkerStep (Except.ok nodeC3) none (fun _ => true)
          (fun _ => Except.error "boom"))
      = false := by
  constructor <;> rfl

/-- C3, amended: for every entry job whose `SaveFile` fails inside the file
worker, the worker panics with that error — aborting instead of recording
the error on the resulting Node and continuing. -/
theorem c3_fileworker_amended (nffi : Except String Node) (oldNode : Option Node)
    (test : Nat → Bool) (saveFileF : Node → Except String (Node × List Blob))
    (node : Node) (e : String)
    (h1 : nffi = Except.ok node)
    (h2 : (applyOldNode test oldNode node).type = "file")
    (h3 : contentLen (applyOldNode test oldNode node) = 0)
    (h4 : saveFileF (applyOldNode test oldNode node) = Except.error e) :
    fileWorkerStep nffi oldNode test saveFileF = WorkerOutcome.panicked e := by
  subst h1
  simp [fileWorkerStep, h2, h3, h4]

/-- Witness for the amended C3 at the concrete job of the counterexample. -/
theorem c3_fileworker_amended_witness :
    fileWorkerStep (Except.ok nodeC3) none (fun _ => false)
        (fun _ => Except.error "disk gone")
      = WorkerOutcome.panicked "disk gone" := by
  exact c3_fileworker_amended _ _ _ _ nodeC3 "disk gone" rfl rfl rfl rfl

/-- C6, counterexample: the re-stat of the opened file shows mtime 6 while
the node recorded mtime 5, and the error callback returns a non-nil error
("fatal") — yet `SaveFile` neither propagates that error nor refreshes the
node: it continues with the stale node and a nil error. -/
theorem c6_statcheck_counterexample :
    saveFileStatCheck (fun _ _ _ => some "fatal")
        (Except.ok ⟨"x", "/a/x", "file", 10, 6, none, none, "", none, [], false⟩)
        ⟨0, 6, 10⟩
        ⟨"x", "/a/x", "file", 10, 5, none, none, "", none, [], false⟩
      = Except.ok ⟨"x", "/a/x", "file", 10, 5, none, none, "", none, [], false⟩ := by
  rfl

/-- C6, amended: when the re-stat shows a different mtime, the callback is
consulted; if it returns nil the node is rebuilt from the current stat
(`SaveFile` continues with the result of `NodeFromFileInfo`, propagating
only that function's own failure); if it returns non-nil, the callback's
error is discarded and `SaveFile` continues with the stale node — the
snapshot is not aborted. -/
theorem c6_statcheck_amended
    (archError : String → Option FileInfo → String → Option String)
    (nffi : Except String Node) (fi : FileInfo) (node : Node)
    (h : fi.modTime ≠ node.modTime) :
    (archError node.path (some fi) "file was updated, using new version" = none →
      saveFileStatCheck archError nffi fi node = nffi)
    ∧ (∀ e2,
        archError node.path (some fi) "file was updated, using new version" = some e2 →
        saveFileStatCheck archError nffi fi node = Except.ok node) := by
  unfold saveFileStatCheck
  rw [if_pos h]
  constructor
  · intro hcb
    rw [hcb]
    cases nffi <;> rfl
  · intro e2 hcb
    rw [hcb]

/-- Witness for the amended C6: with a callback that returns "fatal" and a
stat whose mtime 6 differs from the node's 5, `SaveFile` keeps the stale
node. -/
theorem c6_statcheck_amended_witness :
    saveFileStatCheck (fun _ _ _ => some "fatal") (Except.error "unused")
        ⟨0, 6, 10⟩
        ⟨"x", "/a/x", "file", 10, 5, none, none, "", none, [], false⟩
      = Except.ok ⟨"x", "/a/x", "file", 10, 5, none, none, "", none, [], false⟩ := by
  exact (c6_statcheck_amended (fun _ _ _ => some "fatal") (Except.error "unused")
    ⟨0, 6, 10⟩ ⟨"x", "/a/x", "file", 10, 5, none, none, "", none, [], false⟩
    (by decide)).2 "fatal" rfl

/-- All tree loads failing leaves the global index untouched (the skipped
trees contribute nothing). -/
lemma preloadRun_skip_all (ids : List Nat) :
    ∀ (eachIDErr : Option String) (loadTree : Nat → Option Map) (m : Map),
      (∀ i ∈ ids, loadTree i = none) →
      (preloadRun none ids eachIDErr loadTree m).2 = m := by
  induction ids with
  | nil =>
    intro e lt m _
    rfl
  | cons i rest ih =>
    intro e lt m h
    have hi : lt i = none := h i (by simp)
    have hstep : preloadRun none (i :: rest) e lt m = preloadRun none rest e lt m := by
      simp [preloadRun, hi]
    rw [hstep]
    exact ih e lt m (fun j hj => h j (by simp [hj]))

/-- C7, counterexample: `Preload` does return an error to the caller: when
listing the tree ids (`EachID`) fails, that error is returned (here with no
trees at all, merging nothing). -/
theorem c7_preload_counterexample :
    preloadRun none [] (some "listing failed") (fun _ => none) []
      = (some "listing failed", []) := by
  rfl

/-- C7, amended: failures loading or decoding a single tree are skipped, and
the merge of the successfully decoded trees proceeds regardless of a
listing failure — but `Preload` does return an error when the cache cannot
be created (before merging anything) or when `EachID` itself fails. -/
theorem c7_preload_amended (cacheErr : Option String) (ids : List Nat)
    (eachIDErr : Option String) (loadTree : Nat → Option Map) (m : Map) :
    (∀ e, cacheErr = some e →
      preloadRun cacheErr ids eachIDErr loadTree m = (some e, m))
    ∧ (cacheErr = none →
        (preloadRun cacheErr ids eachIDErr loadTree m).1 = eachIDErr
        ∧ (preloadRun cacheErr ids eachIDErr loadTree m).2
            = (preloadRun none ids none loadTree m).2
        ∧ ((∀ i ∈ ids, loadTree i = none) →
            (preloadRun cacheErr ids eachIDErr loadTree m).2 = m)) := by
  constructor
  · intro e he
    simp [preloadRun, he]
  · intro hc
    refine ⟨?_, ?_, ?_⟩
    · simp [preloadRun, hc]
    · simp [preloadRun, hc]
    · intro h
      rw [hc]
      exact preloadRun_skip_all ids eachIDErr loadTree m h

/-- Witness for the amended C7: one tree id whose load fails is skipped and
the `EachID` error is returned while the index stays as it was. -/
theorem c7_preload_amended_witness :
    (preloadRun none [4] (some "listing failed") (fun _ => none) [⟨1, 2, 3⟩]).1
      = some "listing failed"
    ∧ (preloadRun none [4] (some "listing failed") (fun _ => none) [⟨1, 2, 3⟩]).2
      = [⟨1, 2, 3⟩] := by
  have h := (c7_preload_amended none [4] (some "listing failed") (fun _ => none)
    [⟨1, 2, 3⟩]).2 rfl
  exact ⟨h.1, h.2.2 (fun i _ => rfl)⟩

/-- C8: lowering a job from the compare stage (`archiveJob.Copy`): the new
job passes through unchanged when there is no old side, when the entry is
not a file, when the old Node is absent (type mismatch), or when the old
Node tests newer against the new path and file info; otherwise the new
entry is returned annotated with the old Node; a directory job (non-file
info) always passes through un-annotated. -/
theorem c8_copy_lowering (isNewer : Node → String → Option FileInfo → Bool)
    (j : ArchiveJob) :
    (j.hasOld = false → archiveJobCopy isNewer j = some j.newJob)
    ∧ (isFile j.newJob.info = false → archiveJobCopy isNewer j = some j.newJob)
    ∧ (j.hasOld = true → isFile j.newJob.info = true → j.oldNode = none →
        archiveJobCopy isNewer j = some j.newJob)
    ∧ (∀ old, j.hasOld = true → isFile j.newJob.info = true →
        j.oldNode = some old →
        isNewer old j.newJob.fullpath j.newJob.info = true →
        archiveJobCopy isNewer j = some j.newJob)
    ∧ (∀ old p fp i n, j.hasOld = true → j.oldNode = some old →
        isNewer old j.newJob.fullpath j.newJob.info = false →
        j.newJob = PipeJob.entry p fp i n → isFile i = true →
        archiveJobCopy isNewer j = some (PipeJob.entry p fp i (some old)))
    ∧ (∀ p i, j.newJob = PipeJob.dir p i → isFile i = false →
        archiveJobCopy isNewer j = some j.newJob) := by
  have hbool : j.hasOld = false ∨ j.hasOld = true := by
    cases j.hasOld
    · exact Or.inl rfl
    · exact Or.inr rfl
  refine ⟨?_, ?_, ?_, ?_, ?_, ?_⟩
  · intro h
    simp [archiveJobCopy, h]
  · intro h
    rcases hbool with ho | ho
    · simp [archiveJobCopy, ho]
    · simp [archiveJobCopy, ho, h]
  · intro h1 h2 h3
    simp [archiveJobCopy, h1, h2, h3]
  · intro old h1 h2 h3 h4
    simp [archiveJobCopy, h1, h2, h3, h4]
  · intro old p fp i n h1 h2 h3 h4 h5
    rw [h4] at h3
    simp only [PipeJob.fullpath, PipeJob.info] at h3
    simp [archiveJobCopy, h1, h2, h3, h4, h5, PipeJob.fullpath, PipeJob.info]
  · intro p i h1 h2
    rcases hbool with ho | ho
    · simp [archiveJobCopy, ho]
    · rw [h1]
      simp [archiveJobCopy, ho, h1, PipeJob.info, h2]

/-- The old node of the C8 witness: an unchanged file. -/
def nodeC8old : Node := ⟨"x", "/a/x", "file", 5, 3, some [1, 2], none, "", none, [], false⟩

/-- The joined job of the C8 witness: a regular-file entry (mode 0) with an
old node attached and an `isNewer` test that reports it unchanged. -/
def jobC8 : ArchiveJob :=
  ⟨true, "/a/x", some nodeC8old, PipeJob.entry "/a/x" "/a/x" (some ⟨0, 3, 5⟩) none⟩

/-- Witness for C8: an unchanged file entry is annotated with the old
Node. -/
theorem c8_copy_lowering_witness :
    archiveJobCopy (fun _ _ _ => false) jobC8
      = some (PipeJob.entry "/a/x" "/a/x" (some ⟨0, 3, 5⟩) (some nodeC8old)) := by
  exact (c8_copy_lowering (fun _ _ _ => false) jobC8).2.2.2.2.1 nodeC8old
    "/a/x" "/a/x" (some ⟨0, 3, 5⟩) none rfl rfl rfl rfl (by decide)

/-- C5: the tail of `SaveFile` fails exactly when the number of collected
blobs differs from the number of chunks the chunker produced or when the
blob sizes do not sum to the node's size; on success the node's content is
the blobs' content ids in chunker order, the sizes sum to the node size,
and there is one blob per chunk. -/
theorem c5_savefile_size_checks (node : Node) (chunks : Nat) (blobs : List Blob) :
    (isError (saveFileFinish node chunks blobs) = true
      ↔ blobs.length ≠ chunks ∨ (blobs.map (fun b => b.size)).sum ≠ node.size)
    ∧ (∀ n2 bs, saveFileFinish node chunks blobs = Except.ok (n2, bs) →
        bs = blobs
        ∧ n2.content = some (blobs.map (fun b => b.id))
        ∧ (blobs.map (fun b => b.size)).sum = node.size
        ∧ blobs.length = chunks) := by
  by_cases h1 : blobs.length = chunks
  · by_cases h2 : (blobs.map (fun b => b.size)).sum = node.size
    · constructor
      · simp [saveFileFinish, isError, h1, h2]
      · intro n2 bs heq
        simp only [saveFileFinish] at heq
        rw [if_neg (by simp [h1]), if_neg (by simp [h2])] at heq
        simp only [Except.ok.injEq, Prod.mk.injEq] at heq
        exact ⟨heq.2.symm, by rw [← heq.1], h2, h1⟩
    · constructor
      · simp [saveFileFinish, isError, h1, h2]
      · intro n2 bs heq
        simp [saveFileFinish, h1, h2] at heq
  · constructor
    · simp [saveFileFinish, isError, h1]
    · intro n2 bs heq
      simp [saveFileFinish, h1] at heq

/-- Witness for C5: two chunks of sizes 3 and 4 for a node of size 7
succeed and populate the content ids in order; the sizes sum to the node
size. -/
theorem c5_savefile_size_checks_witness :
    (⟨"x", "/a/x", "file", 7, 0, some [10, 11], none, "", none, [], false⟩ : Node).content
      = some ([(⟨10, 20, 3⟩ : Blob), ⟨11, 21, 4⟩].map (fun b => b.id))
    ∧ ([(⟨10, 20, 3⟩ : Blob), ⟨11, 21, 4⟩].map (fun b => b.size)).sum
      = (⟨"x", "/a/x", "file", 7, 0, none, none, "", none, [], false⟩ : Node).size := by
  have h := (c5_savefile_size_checks
    ⟨"x", "/a/x", "file", 7, 0, none, none, "", none, [], false⟩ 2
    [⟨10, 20, 3⟩, ⟨11, 21, 4⟩]).2
    ⟨"x", "/a/x", "file", 7, 0, some [10, 11], none, "", none, [], false⟩
    [⟨10, 20, 3⟩, ⟨11, 21, 4⟩] (by rfl)
  exact ⟨h.2.1, h.2.2.1⟩

/-- Looking up an id after deleting an id: deleted if equal, untouched
otherwise. -/
lemma findID_deleteID (m : Map) (x id : Nat) :
    mapFindID (mapDeleteID m x) id = if id = x then none else mapFindID m id := by
  induction m with
  | nil =>
    by_cases h : id = x <;> simp [mapFindID, mapDeleteID, h]
  | cons b rest ih =>
    by_cases hbx : b.id = x
    · have hdrop : mapDeleteID (b :: rest) x = mapDeleteID rest x := by
        simp [mapDeleteID, List.filter_cons, hbx]
      rw [hdrop, ih]
      by_cases hid : id = x
      · simp [hid]
      · have hbid : (b.id == id) = false := by
          simp only [beq_eq_false_iff_ne, ne_eq, hbx]
          intro hc
          exact hid hc.symm
        simp [hid, mapFindID, List.find?_cons, hbid]
    · have hkeep : mapDeleteID (b :: rest) x = b :: mapDeleteID rest x := by
        simp [mapDeleteID, List.filter_cons, hbx]
      rw [hkeep]
      by_cases hbid : b.id = id
      · have hid : ¬ id = x := fun hc => hbx (by rw [hbid, hc])
        simp [mapFindID, List.find?_cons, hbid, hid]
      · have hb : (b.id == id) = false := by simp [hbid]
        simp only [mapFindID, List.find?_cons, hb]
        rw [show (List.find? (fun c => c.id == id) (mapDeleteID rest x))
            = mapFindID (mapDeleteID rest x) id from rfl, ih]
        by_cases hid : id = x
        · simp [hid]
        · simp [hid, mapFindID, List.find?_cons, hb]

/-- Badness of a content id survives deleting any id from the index. -/
lemma badIDb_deleteID (test : Nat → Bool) (tm : Map) (x id : Nat)
    (h : badIDb test tm id = true) :
    badIDb test (mapDeleteID tm x) id = true := by
  unfold badIDb at *
  rw [findID_deleteID]
  by_cases hid : id = x
  · simp [hid]
  · simp only [if_neg hid]
    exact h

/-- Absence of an id from both indices is preserved by the validation
loop (it only deletes). -/
lemma checkContentIds_preserves_none (test : Nat → Bool) (ids : List Nat) :
    ∀ (tm gm : Map) (rm : Bool) (id : Nat),
      mapFindID tm id = none → mapFindID gm id = none →
      mapFindID (checkContentIds test ids tm gm rm).1 id = none
      ∧ mapFindID (checkContentIds test ids tm gm rm).2.1 id = none := by
  induction ids with
  | nil =>
    intro tm gm rm id h1 h2
    exact ⟨h1, h2⟩
  | cons i rest ih =>
    intro tm gm rm id h1 h2
    have hdel1 : mapFindID (mapDeleteID tm i) id = none := by
      rw [findID_deleteID]
      by_cases hid : id = i
      · simp [hid]
      · simp [hid, h1]
    have hdel2 : mapFindID (mapDeleteID gm i) id = none := by
      rw [findID_deleteID]
      by_cases hid : id = i
      · simp [hid]
      · simp [hid, h2]
    cases hfind : mapFindID tm i with
    | none =>
      simp only [checkContentIds, hfind]
      exact ih (mapDeleteID tm i) (mapDeleteID gm i) true id hdel1 hdel2
    | some blob =>
      by_cases htest : test blob.storage
      · simp only [checkContentIds, hfind, htest, if_true]
        exact ih tm gm rm id h1 h2
      · simp only [checkContentIds, hfind, if_neg htest]
        exact ih (mapDeleteID tm i) (mapDeleteID gm i) true id hdel1 hdel2

/-- Once the removal flag is set the validation loop keeps it set. -/
lemma checkContentIds_flag_mono (test : Nat → Bool) (ids : List Nat) :
    ∀ (tm gm : Map), (checkContentIds test ids tm gm true).2.2 = true := by
  induction ids with
  | nil =>
    intro tm gm
    rfl
  | cons i rest ih =>
    intro tm gm
    cases hfind : mapFindID tm i with
    | none =>
      simp only [checkContentIds, hfind]
      exact ih _ _
    | some blob =>
      by_cases htest : test blob.storage
      · simp only [checkContentIds, hfind, htest, if_true]
        exact ih _ _
      · simp only [checkContentIds, hfind, if_neg htest]
        exact ih _ _

/-- Every content id that is bad with respect to the incoming tree index is
deleted from both indices by the validation loop, and the removal flag ends
up set. -/
lemma checkContentIds_bad (test : Nat → Bool) (ids : List Nat) :
    ∀ (tm gm : Map) (rm : Bool) (id : Nat), id ∈ ids →
      badIDb test tm id = true →
      mapFindID (checkContentIds test ids tm gm rm).1 id = none
      ∧ mapFindID (checkContentIds test ids tm gm rm).2.1 id = none
      ∧ (checkContentIds test ids tm gm rm).2.2 = true := by
  induction ids with
  | nil =>
    intro tm gm rm id hmem
    cases hmem
  | cons i rest ih =>
    intro tm gm rm id hmem hbad
    cases hfind : mapFindID tm i with
    | none =>
      simp only [checkContentIds, hfind]
      rcases List.mem_cons.mp hmem with heq | hrest
      · subst heq
        have h1 : mapFindID (mapDeleteID tm id) id = none := by
          rw [findID_deleteID]
          simp
        have h2 : mapFindID (mapDeleteID gm id) id = none := by
          rw [findID_deleteID]
          simp
        have hp := checkContentIds_preserves_none test rest
          (mapDeleteID tm id) (mapDeleteID gm id) true id h1 h2
        exact ⟨hp.1, hp.2, checkContentIds_flag_mono test rest _ _⟩
      · exact ih (mapDeleteID tm i) (mapDeleteID gm i) true id hrest
          (badIDb_deleteID test tm i id hbad)
    | some blob =>
      by_cases htest : test blob.storage
      · simp only [checkContentIds, hfind, htest, if_true]
        rcases List.mem_cons.mp hmem with heq | hrest
        · subst heq
          unfold badIDb at hbad
          rw [hfind] at hbad
          simp [htest] at hbad
        · exact ih tm gm rm id hrest hbad
      · simp only [checkContentIds, hfind, if_neg htest]
        rcases List.mem_cons.mp hmem with heq | hrest
        · subst heq
          have h1 : mapFindID (mapDeleteID tm id) id = none := by
            rw [findID_deleteID]
            simp
          have h2 : mapFindID (mapDeleteID gm id) id = none := by
            rw [findID_deleteID]
            simp
          have hp := checkContentIds_preserves_none test rest
            (mapDeleteID tm id) (mapDeleteID gm id) true id h1 h2
          exact ⟨hp.1, hp.2, checkContentIds_flag_mono test rest _ _⟩
        · exact ih (mapDeleteID tm i) (mapDeleteID gm i) true id hrest
            (badIDb_deleteID test tm i id hbad)

/-- With the default (always-nil) error callback and no file node that has
nil content without a pending error, the check loop of `saveTree` succeeds,
records each pending error on its node, and collects exactly the used
ids. -/
lemma finishNodes_default (nodes : List Node)
    (h : ∀ n ∈ nodes, ¬(n.type = "file" ∧ n.content = none ∧ n.err = none)) :
    finishNodes (fun _ _ => none) nodes
      = Except.ok (nodes.map recordNodeError, usedIDsOf nodes) := by
  induction nodes with
  | nil =>
    rfl
  | cons node rest ih =>
    have hnode := h node (by simp)
    have hrest := ih (fun n hn => h n (by simp [hn]))
    simp only [finishNodes, if_neg hnode]
    cases herr : node.err with
    | some e =>
      simp only [hrest]
      simp [recordNodeError, herr, usedIDsOf]
    | none =>
      simp only [hrest]
      simp [recordNodeError, herr, usedIDsOf]

/-- C4: during `saveTree`, (1) a file node with non-empty content that
references an id absent from the tree's Blob Index or whose blob fails the
store presence test has its content cleared to an empty list, and every
such id is deleted from both the tree's local index and the global index;
(2) with the default (always-nil) error callback, a node whose save failed
(pending `err`) gets that error recorded in its serialized error field and
the tree is still serialized and saved — the run commits with the damaged
node; (3) the tree's local Blob Index is pruned to exactly the content ids
referenced by the tree's immediate children — the ids of the pruned index
are precisely its previous ids restricted to the used ids, which are the
files' content ids together with the dirs' subtree ids. -/
theorem c4_savetree_repair :
    (∀ (test : Nat → Bool) (tm gm : Map) (node : Node),
      node.type = "file" → contentLen node > 0 →
      ((∃ id ∈ node.content.getD [], badIDb test tm id = true) →
        (checkFileContent test tm gm node).2.2.content = some [])
      ∧ (∀ id ∈ node.content.getD [], badIDb test tm id = true →
          mapFindID (checkFileContent test tm gm node).1 id = none
          ∧ mapFindID (checkFileContent test tm gm node).2.1 id = none))
    ∧ (∀ (nodes : List Node) (tm : Map) (saveJSON : Except String Blob) (b : Blob),
        (∀ n ∈ nodes, ¬(n.type = "file" ∧ n.content = none ∧ n.err = none)) →
        saveJSON = Except.ok b →
        saveTreeFinish (fun _ _ => none) saveJSON nodes tm
          = Except.ok (b, nodes.map recordNodeError, mapPrune tm (usedIDsOf nodes)))
    ∧ (∀ (tm : Map) (keep : List Nat) (id : Nat),
        id ∈ mapIDs (mapPrune tm keep) ↔ id ∈ mapIDs tm ∧ id ∈ keep) := by
  refine ⟨?_, ?_, ?_⟩
  · intro test tm gm node h1 h2
    have hcond : node.type = "file" ∧ contentLen node > 0 := ⟨h1, h2⟩
    constructor
    · intro hex
      obtain ⟨id, hmem, hbad⟩ := hex
      have hflag := (checkContentIds_bad test (node.content.getD [])
        tm gm false id hmem hbad).2.2
      simp only [checkFileContent, if_pos hcond, hflag, if_true]
    · intro id hmem hbad
      have hb := checkContentIds_bad test (node.content.getD []) tm gm false id hmem hbad
      simp only [checkFileContent, if_pos hcond]
      exact ⟨hb.1, hb.2.1⟩
  · intro nodes tm saveJSON b h hjson
    unfold saveTreeFinish
    rw [finishNodes_default nodes h, hjson]
  · intro tm keep id
    simp only [mapIDs, mapPrune, List.mem_map, List.mem_filter]
    constructor
    · rintro ⟨blob, ⟨hmem, hcont⟩, hid⟩
      refine ⟨⟨blob, hmem, hid⟩, ?_⟩
      rw [← hid]
      simpa using hcont
    · rintro ⟨⟨blob, hmem, hid⟩, hkeep⟩
      refine ⟨blob, ⟨hmem, ?_⟩, hid⟩
      rw [hid]
      simpa using hkeep

/-- File node for the C4 witness whose single content id 1 has gone bad. -/
def nodeC4 : Node := ⟨"y", "/a/y", "file", 3, 0, some [1], none, "", none, [], false⟩

/-- File node for the C4 witness whose save failed: content already cleared
and a pending error. -/
def nodeC4err : Node :=
  ⟨"z", "/a/z", "file", 3, 0, some [], none, "", some "save failed", [], false⟩

/-- Witness for C4: a failing presence test clears `nodeC4`'s content and
deletes id 1 from both indices; a tree containing only the damaged
`nodeC4err` still saves, with the error recorded and the local index pruned
to the (empty) set of used ids; and id 1 survives pruning exactly when it is
both stored and used. -/
theorem c4_savetree_repair_witness :
    (checkFileContent (fun _ => false) [⟨1, 5, 3⟩] [⟨1, 5, 3⟩] nodeC4).2.2.content
      = some []
    ∧ mapFindID (checkFileContent (fun _ => false) [⟨1, 5, 3⟩] [⟨1, 5, 3⟩] nodeC4).1 1
      = none
    ∧ mapFindID (checkFileContent (fun _ => false) [⟨1, 5, 3⟩] [⟨1, 5, 3⟩] nodeC4).2.1 1
      = none
    ∧ saveTreeFinish (fun _ _ => none) (Except.ok ⟨9, 10, 11⟩) [nodeC4err] [⟨1, 5, 3⟩]
      = Except.ok (⟨9, 10, 11⟩,
          [⟨"z", "/a/z", "file", 3, 0, some [], none, "save failed", some "save failed",
            [], false⟩],
          mapPrune [⟨1, 5, 3⟩] (usedIDsOf [nodeC4err]))
    ∧ 1 ∈ mapIDs (mapPrune [⟨1, 5, 3⟩] [1]) := by
  obtain ⟨p1, p2, p3⟩ := c4_savetree_repair
  have h1 := p1 (fun _ => false) [⟨1, 5, 3⟩] [⟨1, 5, 3⟩] nodeC4 rfl (by decide)
  have hbad : badIDb (fun _ => false) [⟨1, 5, 3⟩] 1 = true := by decide
  have hmem : (1 : Nat) ∈ nodeC4.content.getD [] := by decide
  have h2 := p2 [nodeC4err] [⟨1, 5, 3⟩] (Except.ok ⟨9, 10, 11⟩) ⟨9, 10, 11⟩
    (by intro n hn; simp [nodeC4err] at hn; subst hn; simp [nodeC4err]) rfl
  refine ⟨h1.1 ⟨1, hmem, hbad⟩, (h1.2 1 hmem hbad).1, (h1.2 1 hmem hbad).2, ?_, ?_⟩
  · rw [h2]
    rfl
  · exact (p3 [⟨1, 5, 3⟩] [1] 1).mpr ⟨by decide, by decide⟩

end ResticArchiver
